import Mathlib

/-!
Shallow embedding of `i3bar.go` (package i3bar): a writer for the i3bar
status-line protocol.  Go machine integers are modelled as `Int`, byte
strings as `String`, and the fallible `io.Writer` sink as an explicit
state with a schedule of write outcomes.
-/

namespace I3bar

/-- `strings.ToLower`, mapping each character to lower case (the codec
names are ASCII, where Go's Unicode folding and per-character ASCII
folding agree). -/
def goToLower (s : String) : String := String.mk (s.toList.map Char.toLower)

/-- `errors.Wrap(err, msg)` yields an error whose message is
`msg ++ ": " ++ err.Error()`. -/
def wrapErr (msg cause : String) : String := msg ++ ": " ++ cause

/-- `pat` is a prefix of `s`, on character lists. -/
def startsWith : List Char → List Char → Bool
  | [], _ => true
  | _ :: _, [] => false
  | p :: ps, c :: cs => p = c && startsWith ps cs

/-- `pat` occurs contiguously inside `s`, on character lists. -/
def occursIn (pat : List Char) : List Char → Bool
  | [] => startsWith pat []
  | c :: cs => startsWith pat (c :: cs) || occursIn pat cs

/-- Decidable substring test: `pat` occurs inside `s`. -/
def containsStr (s pat : String) : Bool := occursIn pat.toList s.toList

/-- `Alignment` is a Go `int` (type Alignment int). -/
abbrev Alignment := Int

/-- `Left Alignment = iota` -/
def Left : Alignment := 0
/-- `Center` -/
def Center : Alignment := 1
/-- `Right` -/
def Right : Alignment := 2

/-- `func (a *Alignment) UnmarshalText(b []byte) error`.
The receiver is passed in and returned (pointer mutation); the second
component is the error: `none` on success.  On the default branch the
receiver is returned unchanged together with
`errors.Errorf("unknown alignment: %s", string(b))`. -/
def Alignment.unmarshalText (a : Alignment) (b : String) : Alignment × Option String :=
  if goToLower b = "left" then (Left, none)
  else if goToLower b = "center" then (Center, none)
  else if goToLower b = "right" then (Right, none)
  else (a, some ("unknown alignment: " ++ b))

/-- `func (a Alignment) MarshalText() ([]byte, error)`:
the lowercase name for the three variants, otherwise
`errors.Errorf("unknown alignment: %d", a)`. -/
def Alignment.marshalText (a : Alignment) : Except String String :=
  if a = Left then .ok "left"
  else if a = Center then .ok "center"
  else if a = Right then .ok "right"
  else .error ("unknown alignment: " ++ toString a)

/-- `Markup` is a Go `int` (type Markup int). -/
abbrev Markup := Int

/-- `NoMarkup Markup = iota` -/
def NoMarkup : Markup := 0
/-- `Pango` -/
def Pango : Markup := 1

/-- `func (m *Markup) UnmarshalText(b []byte) error`. -/
def Markup.unmarshalText (m : Markup) (b : String) : Markup × Option String :=
  if goToLower b = "none" then (NoMarkup, none)
  else if goToLower b = "pango" then (Pango, none)
  else (m, some ("unknown markup: " ++ b))

/-- `func (m Markup) MarshalText() ([]byte, error)`. -/
def Markup.marshalText (m : Markup) : Except String String :=
  if m = NoMarkup then .ok "none"
  else if m = Pango then .ok "pango"
  else .error ("unknown markup: " ++ toString m)

/-- `type Header struct` with json tags
`version`, `stop_signal,omitempty`, `cont_signal,omitempty`,
`click_events,omitempty`. -/
structure Header where
  Version : Int := 0
  StopSignal : Int := 0
  ContSignal : Int := 0
  ClickEvents : Bool := false
deriving Repr, DecidableEq

/-- `type Block struct` with its json tags; every field except
`full_text` carries `omitempty`. -/
structure Block where
  Name : String := ""
  Instance : String := ""
  FullText : String := ""
  ShortText : String := ""
  Color : String := ""
  Background : String := ""
  Border : String := ""
  MinWidth : String := ""
  Align : Alignment := 0
  Urgent : Bool := false
  Separator : Bool := false
  SeparatorBlockWidth : Int := 0
  Markup : Markup := 0
deriving Repr, DecidableEq

/-- `type StatusLine []*Block` (nil pointers are never used by the
package, so a plain list of blocks). -/
abbrev StatusLine := List Block

/-! ### The `encoding/json` encoder, specialised to the shapes the
package writes (flat header object, array of flat block objects). -/

/-- Lowercase hex digit, as `encoding/json` uses. -/
def hexDig (n : Nat) : Char := ("0123456789abcdef".toList).getD n '0'

/-- One character of Go json string escaping with the encoder's default
HTML escaping (`SetEscapeHTML` left at `true`). -/
def escapeChar (c : Char) : String :=
  if c = '"' then "\\\""
  else if c = '\\' then "\\\\"
  else if c = '<' then "\\u003c"
  else if c = '>' then "\\u003e"
  else if c = '&' then "\\u0026"
  else if c = '\n' then "\\n"
  else if c = '\r' then "\\r"
  else if c = '\t' then "\\t"
  else if c.toNat < 32 then "\\u00" ++ String.mk [hexDig (c.toNat / 16), hexDig (c.toNat % 16)]
  else if c = Char.ofNat 8232 then "\\u2028"
  else if c = Char.ofNat 8233 then "\\u2029"
  else String.singleton c

/-- Go json string escaping applied to a whole string. -/
def escapeString (s : String) : String := String.join (s.toList.map escapeChar)

/-- A json string literal. -/
def quote (s : String) : String := "\"" ++ escapeString s ++ "\""

/-- A json int literal (`strconv`-style, same as Lean's `toString`). -/
def renderInt (n : Int) : String := toString n

/-- A json bool literal. -/
def renderBool (b : Bool) : String := if b then "true" else "false"

/-- The fields `encoding/json` emits for a `Header`, in struct order,
with `omitempty` dropping zero values; `version` is always present. -/
def headerFields (h : Header) : List (String × String) :=
  [("version", renderInt h.Version)]
    ++ (if h.StopSignal = 0 then [] else [("stop_signal", renderInt h.StopSignal)])
    ++ (if h.ContSignal = 0 then [] else [("cont_signal", renderInt h.ContSignal)])
    ++ (if h.ClickEvents = false then [] else [("click_events", renderBool h.ClickEvents)])

/-- The fields `encoding/json` emits for a `Block`, in struct order;
`full_text` is always present, all other fields carry `omitempty` and
are dropped at their zero value.  `align`/`markup` render through their
`MarshalText`, whose failure aborts the whole encode with the json
package's wrapping of the marshaler error. -/
def blockFields (b : Block) : Except String (List (String × String)) := do
  let alignF ←
    if b.Align = 0 then pure []
    else match Alignment.marshalText b.Align with
      | .ok s => pure [("align", quote s)]
      | .error e =>
          throw ("json: error calling MarshalText for type i3bar.Alignment: " ++ e)
  let markupF ←
    if b.Markup = 0 then pure []
    else match Markup.marshalText b.Markup with
      | .ok s => pure [("markup", quote s)]
      | .error e =>
          throw ("json: error calling MarshalText for type i3bar.Markup: " ++ e)
  pure ((if b.Name = "" then [] else [("name", quote b.Name)])
    ++ (if b.Instance = "" then [] else [("instance", quote b.Instance)])
    ++ [("full_text", quote b.FullText)]
    ++ (if b.ShortText = "" then [] else [("short_text", quote b.ShortText)])
    ++ (if b.Color = "" then [] else [("color", quote b.Color)])
    ++ (if b.Background = "" then [] else [("background", quote b.Background)])
    ++ (if b.Border = "" then [] else [("border", quote b.Border)])
    ++ (if b.MinWidth = "" then [] else [("min_width", quote b.MinWidth)])
    ++ alignF
    ++ (if b.Urgent = false then [] else [("urgent", renderBool b.Urgent)])
    ++ (if b.Separator = false then [] else [("separator", renderBool b.Separator)])
    ++ (if b.SeparatorBlockWidth = 0 then []
        else [("separator_block_width", renderInt b.SeparatorBlockWidth)])
    ++ markupF)

/-- `"    "` repeated `d` times: `SetIndent("", "    ")` padding at
depth `d`. -/
def pad (d : Nat) : String := String.join (List.replicate d "    ")

/-- Compact rendering of a flat json object from its emitted fields. -/
def renderObjCompact (fields : List (String × String)) : String :=
  "\x7b" ++ String.intercalate ","
    (fields.map (fun p => "\"" ++ p.1 ++ "\":" ++ p.2)) ++ "\x7d"

/-- Indented rendering (indent `"    "`, prefix `""`) of a flat json
object sitting at depth `d`. -/
def renderObjIndent (d : Nat) (fields : List (String × String)) : String :=
  if fields.isEmpty then "\x7b\x7d"
  else
    "\x7b\n" ++ String.intercalate ",\n"
        (fields.map (fun p => pad (d + 1) ++ "\"" ++ p.1 ++ "\": " ++ p.2))
      ++ "\n" ++ pad d ++ "\x7d"

/-- What `json.Marshal` produces for a `Header` (compact or indented). -/
def renderHeader (pretty : Bool) (h : Header) : String :=
  if pretty then renderObjIndent 0 (headerFields h) else renderObjCompact (headerFields h)

/-- What `json.Marshal` produces for a `StatusLine` (compact or
indented): a json array of block objects. -/
def renderStatusLine (pretty : Bool) (line : StatusLine) : Except String String := do
  let fieldLists ← line.mapM blockFields
  if pretty then
    if fieldLists.isEmpty then pure "[]"
    else
      pure ("[\n" ++ String.intercalate ",\n"
          (fieldLists.map (fun fs => pad 1 ++ renderObjIndent 1 fs))
        ++ "\n]")
  else
    pure ("[" ++ String.intercalate "," (fieldLists.map renderObjCompact) ++ "]")

/-! ### The byte sink (`io.Writer`) and the `Stream` operations. -/

/-- An `io.Writer` as a state: `out` is everything successfully written
so far, and `sched` scripts the outcome of the coming `Write` calls in
order (`none` = success, `some c` = failure with error message `c`).
An exhausted schedule means every further write succeeds. -/
structure Sink where
  out : String := ""
  sched : List (Option String) := []
deriving Repr, DecidableEq

/-- One `Write` call on the sink: consumes the next scheduled outcome;
a successful write appends the data, a failed write appends nothing and
returns the scripted error. -/
def Sink.write (w : Sink) (data : String) : Sink × Option String :=
  match w.sched with
  | [] => ({ w with out := w.out ++ data }, none)
  | none :: rest => ({ out := w.out ++ data, sched := rest }, none)
  | some c :: rest => ({ w with sched := rest }, some c)

/-- `type Stream struct`: the writer-side state the operations consult.
The sink itself is threaded explicitly; the mutex serialises calls and
is modelled separately (see the concurrency section); the reader/decoder
side is constructed but never driven by the package. -/
structure Stream where
  pretty : Bool
deriving Repr, DecidableEq

/-- `json.Encoder.Encode` of an already-marshalled value: a single
`Write` of the rendered value followed by a newline.  A marshal error
(`.error`) aborts before any write. -/
def encoderEncode (w : Sink) (rendered : Except String String) :
    Sink × Option String :=
  match rendered with
  | .error e => (w, some e)
  | .ok s => w.write (s ++ "\n")

/-- `func NewStream(w io.Writer, r io.Reader, pretty bool, h Header)
(*Stream, error)`: encodes the header (wrapping a failure with
"Failed to send header"), then writes the single byte `[` (wrapping a
failure with "Failed to start infinite json array"), and only then
returns the stream.  The returned sink is the sink's state when the
call returns; `.error` is the nil-stream-plus-error return. -/
def NewStream (w : Sink) (pretty : Bool) (h : Header) :
    Sink × Except String Stream :=
  let stream : Stream := { pretty := pretty }
  match encoderEncode w (.ok (renderHeader pretty h)) with
  | (w1, some c) => (w1, .error (wrapErr "Failed to send header" c))
  | (w1, none) =>
    match w1.write "[" with
    | (w2, some c) => (w2, .error (wrapErr "Failed to start infinite json array" c))
    | (w2, none) => (w2, .ok stream)

/-- `func (s *Stream) SendLine(b StatusLine) error`: under the write
lock, encodes the status line as one json value; a failure comes back
wrapped with "Failed to encode status line into json stream". -/
def Stream.SendLine (s : Stream) (b : StatusLine) (w : Sink) :
    Sink × Option String :=
  match encoderEncode w (renderStatusLine s.pretty b) with
  | (w1, some c) => (w1, some (wrapErr "Failed to encode status line into json stream" c))
  | (w1, none) => (w1, none)

/-- `func (s *Stream) Close() error`: under the write lock, writes the
single byte `]`; a failure comes back wrapped with
"Failed to close infinite json array". -/
def Stream.Close (_s : Stream) (w : Sink) : Sink × Option String :=
  match w.write "]" with
  | (w1, some c) => (w1, some (wrapErr "Failed to close infinite json array" c))
  | (w1, none) => (w1, none)

/-! ### Concurrency model for `SendLine`/`Close`.

Several goroutines may call `SendLine` (or `Close`) on the same Stream.
Each such call is `s.wMux.Lock()`, one write of the call's bytes to the
shared sink, `s.wMux.Unlock()`.  The interleaving of the calls is
modelled by a small-step relation: a call's write is byte-granular on
the shared sink — the granularity at which concurrent writes could mix
absent the mutex — and `sync.Mutex` admits at most one holder. -/

/-- Where one caller stands: before `Lock()`, inside the critical
section with the given bytes still to write, or past `Unlock()`. -/
inductive CallPhase where
  | ready : CallPhase
  | writing : List Char → CallPhase
  | done : CallPhase
deriving Repr, DecidableEq

/-- One concurrent caller: the bytes its single locked write puts on
the sink (for `SendLine` the encoded status line plus newline, for
`Close` the byte `]`), and its current phase. -/
structure Caller where
  payload : List Char
  phase : CallPhase
deriving Repr, DecidableEq

/-- Global state: all callers, the mutex holder (by caller index), and
the bytes on the shared sink. -/
structure ConcState where
  callers : List Caller
  lock : Option Nat
  sink : List Char
deriving Repr, DecidableEq

/-- All callers about to issue their call, nothing written yet. -/
def initConc (payloads : List (List Char)) : ConcState :=
  { callers := payloads.map (fun p => { payload := p, phase := .ready })
    lock := none
    sink := [] }

/-- Scheduler steps: any ready caller may take the free mutex; the
holder writes its next byte to the shared sink; the holder releases the
mutex once its bytes are out. -/
inductive ConcStep : ConcState → ConcState → Prop where
  | lock (pre post : List Caller) (p sink : List Char) :
      ConcStep ⟨pre ++ { payload := p, phase := .ready } :: post, none, sink⟩
        ⟨pre ++ { payload := p, phase := .writing p } :: post, some pre.length, sink⟩
  | write (pre post : List Caller) (p : List Char) (c : Char) (cs sink : List Char) :
      ConcStep ⟨pre ++ { payload := p, phase := .writing (c :: cs) } :: post,
          some pre.length, sink⟩
        ⟨pre ++ { payload := p, phase := .writing cs } :: post,
          some pre.length, sink ++ [c]⟩
  | unlock (pre post : List Caller) (p sink : List Char) :
      ConcStep ⟨pre ++ { payload := p, phase := .writing [] } :: post,
          some pre.length, sink⟩
        ⟨pre ++ { payload := p, phase := .done } :: post, none, sink⟩

/-- The payloads of the callers whose call has completed. -/
def donePayloads (l : List Caller) : List (List Char) :=
  l.filterMap (fun t => match t.phase with | .done => some t.payload | _ => none)

/-- No caller in `l` is inside the critical section. -/
def noWriting (l : List Caller) : Prop := ∀ t ∈ l, ∀ r, t.phase ≠ .writing r

/-- Mutex invariant: payloads are fixed, and the sink is the
concatenation of the completed payloads (in some order) followed by the
partial bytes of the current holder, if any; at most the holder is
inside the critical section. -/
def ConcInv (P0 : List (List Char)) (s : ConcState) : Prop :=
  s.callers.map Caller.payload = P0 ∧
  ∃ d : List (List Char),
    d.Perm (donePayloads s.callers) ∧
    ((s.lock = none ∧ noWriting s.callers ∧ s.sink = d.flatten) ∨
     (∃ pre t post rem w,
        s.callers = pre ++ t :: post ∧ s.lock = some pre.length ∧
        t.phase = .writing rem ∧ t.payload = w ++ rem ∧
        noWriting pre ∧ noWriting post ∧
        s.sink = d.flatten ++ w))

/-! ## Theorems about the claims -/

/-- C2: for every Alignment variant, decoding the encoding yields the
variant back, and every mixed-case spelling of a variant name decodes
to that variant; the same holds for Markup with "none" and "pango". -/
theorem c2_enum_roundtrip_case_insensitive :
    (∀ a : Alignment, a = Left ∨ a = Center ∨ a = Right →
      ∀ s, Alignment.marshalText a = .ok s →
        ∀ a0 : Alignment, Alignment.unmarshalText a0 s = (a, none)) ∧
    (∀ (s : String) (a0 : Alignment),
      (goToLower s = "left" → Alignment.unmarshalText a0 s = (Left, none)) ∧
      (goToLower s = "center" → Alignment.unmarshalText a0 s = (Center, none)) ∧
      (goToLower s = "right" → Alignment.unmarshalText a0 s = (Right, none))) ∧
    (∀ m : Markup, m = NoMarkup ∨ m = Pango →
      ∀ s, Markup.marshalText m = .ok s →
        ∀ m0 : Markup, Markup.unmarshalText m0 s = (m, none)) ∧
    (∀ (s : String) (m0 : Markup),
      (goToLower s = "none" → Markup.unmarshalText m0 s = (NoMarkup, none)) ∧
      (goToLower s = "pango" → Markup.unmarshalText m0 s = (Pango, none))) := by
  refine ⟨?_, ?_, ?_, ?_⟩
  · rintro a (rfl | rfl | rfl) s hs a0 <;>
      · simp only [Alignment.marshalText, Left, Center, Right] at hs
        norm_num at hs
        subst hs
        rfl
  · intro s a0
    refine ⟨fun h => ?_, fun h => ?_, fun h => ?_⟩ <;>
      simp [Alignment.unmarshalText, h]
  · rintro m (rfl | rfl) s hs m0 <;>
      · simp only [Markup.marshalText, NoMarkup, Pango] at hs
        norm_num at hs
        subst hs
        rfl
  · intro s m0
    refine ⟨fun h => ?_, fun h => ?_⟩ <;>
      simp [Markup.unmarshalText, h]

/-- C2 witness: concrete round-trip at `Right` and mixed-case decodes
`"LeFt"` and `"PANGO"`. -/
theorem c2_enum_roundtrip_case_insensitive_witness :
    Alignment.unmarshalText 0 "right" = (Right, none) ∧
    Alignment.unmarshalText 1 "LeFt" = (Left, none) ∧
    Markup.unmarshalText 0 "PANGO" = (Pango, none) :=
  ⟨c2_enum_roundtrip_case_insensitive.1 Right (Or.inr (Or.inr rfl)) "right" rfl 0,
   (c2_enum_roundtrip_case_insensitive.2.1 "LeFt" 1).1 (by decide),
   (c2_enum_roundtrip_case_insensitive.2.2.2 "PANGO" 0).2 (by decide)⟩

/-- C5: decoding an unrecognized alignment or markup string fails with
an error message that ends in (hence contains) the offending input, and
the target value is returned unchanged. -/
theorem c5_unknown_text_fails_unchanged :
    (∀ (s : String) (a0 : Alignment),
      goToLower s ≠ "left" → goToLower s ≠ "center" → goToLower s ≠ "right" →
        Alignment.unmarshalText a0 s = (a0, some ("unknown alignment: " ++ s)) ∧
        ∃ p, "unknown alignment: " ++ s = p ++ s) ∧
    (∀ (s : String) (m0 : Markup),
      goToLower s ≠ "none" → goToLower s ≠ "pango" →
        Markup.unmarshalText m0 s = (m0, some ("unknown markup: " ++ s)) ∧
        ∃ p, "unknown markup: " ++ s = p ++ s) := by
  constructor
  · intro s a0 h1 h2 h3
    exact ⟨by simp [Alignment.unmarshalText, h1, h2, h3], "unknown alignment: ", rfl⟩
  · intro s m0 h1 h2
    exact ⟨by simp [Markup.unmarshalText, h1, h2], "unknown markup: ", rfl⟩

/-- C5 witness: decoding `"up"` into an `Alignment` holding `Right`
fails with a message containing `"up"` and leaves the value at `Right`;
decoding `"up"` into a `Markup` holding `Pango` likewise. -/
theorem c5_unknown_text_fails_unchanged_witness :
    (Alignment.unmarshalText Right "up" = (Right, some ("unknown alignment: " ++ "up")) ∧
      ∃ p, "unknown alignment: " ++ "up" = p ++ "up") ∧
    (Markup.unmarshalText Pango "up" = (Pango, some ("unknown markup: " ++ "up")) ∧
      ∃ p, "unknown markup: " ++ "up" = p ++ "up") :=
  ⟨c5_unknown_text_fails_unchanged.1 "up" Right (by decide) (by decide) (by decide),
   c5_unknown_text_fails_unchanged.2 "up" Pango (by decide) (by decide)⟩

/-- C8: MarshalText fails with "unknown alignment"/"unknown markup"
carrying the numeric value on every value outside the variant set, and
succeeds with the lowercase canonical name on every variant. -/
theorem c8_marshal_defensive :
    (∀ a : Alignment, a ≠ Left → a ≠ Center → a ≠ Right →
      Alignment.marshalText a = .error ("unknown alignment: " ++ toString a)) ∧
    Alignment.marshalText Left = .ok "left" ∧
    Alignment.marshalText Center = .ok "center" ∧
    Alignment.marshalText Right = .ok "right" ∧
    (∀ m : Markup, m ≠ NoMarkup → m ≠ Pango →
      Markup.marshalText m = .error ("unknown markup: " ++ toString m)) ∧
    Markup.marshalText NoMarkup = .ok "none" ∧
    Markup.marshalText Pango = .ok "pango" := by
  refine ⟨?_, rfl, rfl, rfl, ?_, rfl, rfl⟩
  · intro a h1 h2 h3
    simp [Alignment.marshalText, h1, h2, h3]
  · intro m h1 h2
    simp [Markup.marshalText, h1, h2]

/-- C8 witness: the out-of-range values `5` and `-1` fail with the
numeric value in the message. -/
theorem c8_marshal_defensive_witness :
    Alignment.marshalText 5 = .error ("unknown alignment: " ++ toString (5 : Int)) ∧
    Markup.marshalText (-1) = .error ("unknown markup: " ++ toString (-1 : Int)) :=
  ⟨c8_marshal_defensive.1 5 (by decide) (by decide) (by decide),
   c8_marshal_defensive.2.2.2.2.1 (-1) (by decide) (by decide)⟩

/-- C3: a Block with all optional fields at their zero values encodes
to an object holding only `full_text` (even when the full text is
empty); setting exactly one optional field to a non-zero value makes
exactly that field appear, all others still absent.  For the
enumerated fields the non-zero values are their non-default variants. -/
theorem c3_block_field_omission :
    (∀ ft : String, blockFields { FullText := ft } = .ok [("full_text", quote ft)]) ∧
    (∀ v : String, v ≠ "" →
      blockFields { Name := v } = .ok [("name", quote v), ("full_text", quote "")]) ∧
    (∀ v : String, v ≠ "" →
      blockFields { Instance := v } = .ok [("instance", quote v), ("full_text", quote "")]) ∧
    (∀ v : String, v ≠ "" →
      blockFields { ShortText := v } = .ok [("full_text", quote ""), ("short_text", quote v)]) ∧
    (∀ v : String, v ≠ "" →
      blockFields { Color := v } = .ok [("full_text", quote ""), ("color", quote v)]) ∧
    (∀ v : String, v ≠ "" →
      blockFields { Background := v } = .ok [("full_text", quote ""), ("background", quote v)]) ∧
    (∀ v : String, v ≠ "" →
      blockFields { Border := v } = .ok [("full_text", quote ""), ("border", quote v)]) ∧
    (∀ v : String, v ≠ "" →
      blockFields { MinWidth := v } = .ok [("full_text", quote ""), ("min_width", quote v)]) ∧
    blockFields { Align := Center } = .ok [("full_text", quote ""), ("align", quote "center")] ∧
    blockFields { Align := Right } = .ok [("full_text", quote ""), ("align", quote "right")] ∧
    blockFields { Urgent := true } = .ok [("full_text", quote ""), ("urgent", "true")] ∧
    blockFields { Separator := true } = .ok [("full_text", quote ""), ("separator", "true")] ∧
    (∀ n : Int, n ≠ 0 →
      blockFields { SeparatorBlockWidth := n } =
        .ok [("full_text", quote ""), ("separator_block_width", renderInt n)]) ∧
    blockFields { Markup := Pango } = .ok [("full_text", quote ""), ("markup", quote "pango")] := by
  refine ⟨fun ft => rfl, ?_, ?_, ?_, ?_, ?_, ?_, ?_, rfl, rfl, rfl, rfl, ?_, rfl⟩ <;>
    · intro v h
      simp [blockFields, h]
      rfl

/-- C3 witness: concrete single-field instances. -/
theorem c3_block_field_omission_witness :
    blockFields { FullText := "" } = .ok [("full_text", quote "")] ∧
    blockFields { Name := "disk" } = .ok [("name", quote "disk"), ("full_text", quote "")] ∧
    blockFields { SeparatorBlockWidth := 9 } =
      .ok [("full_text", quote ""), ("separator_block_width", renderInt 9)] :=
  ⟨c3_block_field_omission.1 "",
   c3_block_field_omission.2.1 "disk" (by decide),
   c3_block_field_omission.2.2.2.2.2.2.2.2.2.2.2.2.1 9 (by decide)⟩

/-- C6: a successful Close appends exactly the single byte `]` to the
sink's output, whatever was written before. -/
theorem c6_close_single_bracket :
    ∀ (s : Stream) (w : Sink), (Stream.Close s w).2 = none →
      (Stream.Close s w).1.out = w.out ++ "]" := by
  intro s w h
  cases hs : w.sched with
  | nil => simp [Stream.Close, Sink.write, hs]
  | cons hd rest =>
    cases hd with
    | none => simp [Stream.Close, Sink.write, hs]
    | some c => simp [Stream.Close, Sink.write, hs] at h

/-- C6 witness: closing over a sink already holding bytes appends `]`. -/
theorem c6_close_single_bracket_witness :
    (Stream.Close { pretty := false } { out := "abc", sched := [] }).1.out = "abc" ++ "]" :=
  c6_close_single_bracket { pretty := false } { out := "abc", sched := [] } rfl

/-- C7: a failing header write makes NewStream return the wrapped
"Failed to send header" error with no stream, the sink output untouched
and exactly one write consumed (the `[` is never attempted); a failing
`[` write returns the wrapped "Failed to start infinite json array"
error with no stream, only the header having reached the sink. -/
theorem c7_newstream_failure_aborts :
    ∀ (o c : String) (rest : List (Option String)) (pretty : Bool) (h : Header),
      NewStream { out := o, sched := some c :: rest } pretty h =
        ({ out := o, sched := rest }, .error ("Failed to send header: " ++ c)) ∧
      NewStream { out := o, sched := none :: some c :: rest } pretty h =
        ({ out := o ++ (renderHeader pretty h ++ "\n"), sched := rest },
          .error ("Failed to start infinite json array: " ++ c)) := by
  intro o c rest pretty h
  exact ⟨rfl, rfl⟩

/-- C1 counterexample: after constructing a Stream with
`Header{Version: 1}` over an empty sink, the sink does NOT hold exactly
`\x7b"version":1\x7d[` — the json encoder terminates the header with a
newline — and the subsequent SendLine does not leave the sink at the
claim's exact bytes either. -/
theorem c1_counterexample :
    (NewStream { } false { Version := 1 }).1.out ≠ "\x7b\"version\":1\x7d[" ∧
    (Stream.SendLine { pretty := false } [{ FullText := "CPU 10%" }]
        (NewStream { } false { Version := 1 }).1).1.out ≠
      "\x7b\"version\":1\x7d[" ++ "[\x7b\"full_text\":\"CPU 10%\"\x7d]" :=
  ⟨by decide, by decide⟩

/-- C1 amended: constructing a Stream with `Header{Version: 1}` over an
empty sink leaves the sink holding `\x7b"version":1\x7d`, a newline
appended by the json encoder, then `[`; the construction succeeds, and
a SendLine of the one-block line "CPU 10%" then appends exactly
`[\x7b"full_text":"CPU 10%"\x7d]` followed by a newline. -/
theorem c1_amended_end_to_end :
    (NewStream { } false { Version := 1 }).1.out = "\x7b\"version\":1\x7d\n[" ∧
    (NewStream { } false { Version := 1 }).2 = .ok { pretty := false } ∧
    (Stream.SendLine { pretty := false } [{ FullText := "CPU 10%" }]
        (NewStream { } false { Version := 1 }).1).1.out =
      "\x7b\"version\":1\x7d\n[" ++ "[\x7b\"full_text\":\"CPU 10%\"\x7d]\n" ∧
    (Stream.SendLine { pretty := false } [{ FullText := "CPU 10%" }]
        (NewStream { } false { Version := 1 }).1).2 = none :=
  ⟨rfl, rfl, by decide, rfl⟩

/-- C4 counterexample: the wrapped messages are not the ones the claim
quotes.  A failing `[` write surfaces
"Failed to start infinite json array: ...", which does not contain
"failed to start infinite array"; a failing close write surfaces
"Failed to close infinite json array: ...", which does not contain
"failed to close infinite array". -/
theorem c4_counterexample :
    (NewStream { out := "", sched := [none, some "boom"] } false { Version := 1 }).2 =
      .error "Failed to start infinite json array: boom" ∧
    containsStr "Failed to start infinite json array: boom"
      "failed to start infinite array" = false ∧
    (Stream.Close { pretty := false } { out := "", sched := [some "boom"] }).2 =
      some "Failed to close infinite json array: boom" ∧
    containsStr "Failed to close infinite json array: boom"
      "failed to close infinite array" = false :=
  ⟨rfl, by decide, rfl, by decide⟩

/-- C4 amended: each sink I/O failure is returned wrapped with its
phase-specific message as the code spells it: "Failed to send header",
"Failed to start infinite json array", "Failed to encode status line
into json stream", and "Failed to close infinite json array". -/
theorem c4_amended_phase_messages :
    (∀ (o c : String) (rest : List (Option String)) (pretty : Bool) (h : Header),
      (NewStream { out := o, sched := some c :: rest } pretty h).2 =
        .error (wrapErr "Failed to send header" c)) ∧
    (∀ (o c : String) (rest : List (Option String)) (pretty : Bool) (h : Header),
      (NewStream { out := o, sched := none :: some c :: rest } pretty h).2 =
        .error (wrapErr "Failed to start infinite json array" c)) ∧
    (∀ (o c : String) (rest : List (Option String)) (s : Stream) (b : StatusLine)
        (r : String), renderStatusLine s.pretty b = .ok r →
      (Stream.SendLine s b { out := o, sched := some c :: rest }).2 =
        some (wrapErr "Failed to encode status line into json stream" c)) ∧
    (∀ (o c : String) (rest : List (Option String)) (s : Stream),
      (Stream.Close s { out := o, sched := some c :: rest }).2 =
        some (wrapErr "Failed to close infinite json array" c)) := by
  refine ⟨fun o c rest pretty h => rfl, fun o c rest pretty h => rfl, ?_,
    fun o c rest s => rfl⟩
  intro o c rest s b r hr
  simp [Stream.SendLine, encoderEncode, hr, Sink.write]

/-- C4 amended witness: concrete failing writes in every phase. -/
theorem c4_amended_phase_messages_witness :
    (NewStream { out := "", sched := [some "io"] } false { Version := 1 }).2 =
      .error (wrapErr "Failed to send header" "io") ∧
    (NewStream { out := "", sched := [none, some "io"] } false { Version := 1 }).2 =
      .error (wrapErr "Failed to start infinite json array" "io") ∧
    (Stream.SendLine { pretty := false } []
        { out := "", sched := [some "io"] }).2 =
      some (wrapErr "Failed to encode status line into json stream" "io") ∧
    (Stream.Close { pretty := false } { out := "", sched := [some "io"] }).2 =
      some (wrapErr "Failed to close infinite json array" "io") :=
  ⟨c4_amended_phase_messages.1 "" "io" [] false { Version := 1 },
   c4_amended_phase_messages.2.1 "" "io" [] false { Version := 1 },
   c4_amended_phase_messages.2.2.1 "" "io" [] { pretty := false } [] "[]" rfl,
   c4_amended_phase_messages.2.2.2 "" "io" [] { pretty := false }⟩

/-- C10: every value written through the json encoder — the header at
construction and each status line in SendLine — is followed by one
newline byte: construction leaves `header ++ "\n" ++ "["` on the sink,
SendLine appends `line ++ "\n"`, and two successive SendLines leave the
two elements newline-delimited with no comma between them. -/
theorem c10_encoder_newline_delimits :
    (∀ (pretty : Bool) (h : Header) (o : String),
      NewStream { out := o, sched := [] } pretty h =
        ({ out := o ++ (renderHeader pretty h ++ "\n") ++ "[", sched := [] },
          .ok { pretty := pretty })) ∧
    (∀ (s : Stream) (b : StatusLine) (o : String) (r : String),
      renderStatusLine s.pretty b = .ok r →
      Stream.SendLine s b { out := o, sched := [] } =
        ({ out := o ++ (r ++ "\n"), sched := [] }, none)) ∧
    (∀ (pretty : Bool) (h : Header) (b1 b2 : StatusLine) (r1 r2 : String),
      renderStatusLine pretty b1 = .ok r1 → renderStatusLine pretty b2 = .ok r2 →
      (Stream.SendLine { pretty := pretty } b2
        (Stream.SendLine { pretty := pretty } b1
          (NewStream { out := "", sched := [] } pretty h).1).1).1.out =
        renderHeader pretty h ++ "\n" ++ "[" ++ r1 ++ "\n" ++ r2 ++ "\n") := by
  refine ⟨fun pretty h o => rfl, ?_, ?_⟩
  · intro s b o r hr
    simp [Stream.SendLine, encoderEncode, hr, Sink.write]
  · intro pretty h b1 b2 r1 r2 h1 h2
    simp [Stream.SendLine, encoderEncode, h1, h2, Sink.write, NewStream,
      String.empty_append, String.append_assoc]

/-- C10 witness: two concrete SendLines after construction leave the
header and the two elements newline-delimited. -/
theorem c10_encoder_newline_delimits_witness :
    (Stream.SendLine { pretty := false } [{ FullText := "b" }]
        (Stream.SendLine { pretty := false } []
          (NewStream { out := "", sched := [] } false { Version := 1 }).1).1).1.out =
      renderHeader false { Version := 1 } ++ "\n" ++ "[" ++ "[]" ++ "\n"
        ++ "[\x7b\"full_text\":\"b\"\x7d]" ++ "\n" :=
  c10_encoder_newline_delimits.2.2 false { Version := 1 } [] [{ FullText := "b" }]
    "[]" "[\x7b\"full_text\":\"b\"\x7d]" rfl rfl

/-! ### Lemmas for the concurrency claim -/

/-- `donePayloads` distributes over append. -/
theorem donePayloads_append (a b : List Caller) :
    donePayloads (a ++ b) = donePayloads a ++ donePayloads b :=
  List.filterMap_append ..

/-- A ready caller contributes no completed payload. -/
theorem donePayloads_cons_ready (p : List Char) (l : List Caller) :
    donePayloads ({ payload := p, phase := .ready } :: l) = donePayloads l := rfl

/-- A caller inside the critical section contributes no completed
payload. -/
theorem donePayloads_cons_writing (p r : List Char) (l : List Caller) :
    donePayloads ({ payload := p, phase := .writing r } :: l) = donePayloads l := rfl

/-- A completed caller contributes its payload. -/
theorem donePayloads_cons_done (p : List Char) (l : List Caller) :
    donePayloads ({ payload := p, phase := .done } :: l) = p :: donePayloads l := rfl

/-- `noWriting` distributes over append. -/
theorem noWriting_append (a b : List Caller) :
    noWriting (a ++ b) ↔ noWriting a ∧ noWriting b := by
  constructor
  · exact fun h => ⟨fun t ht => h t (List.mem_append_left _ ht),
      fun t ht => h t (List.mem_append_right _ ht)⟩
  · rintro ⟨ha, hb⟩ t ht
    rcases List.mem_append.mp ht with h | h
    exacts [ha t h, hb t h]

/-- `noWriting` on a cons. -/
theorem noWriting_cons (t : Caller) (l : List Caller) :
    noWriting (t :: l) ↔ (∀ r, t.phase ≠ .writing r) ∧ noWriting l := by
  constructor
  · exact fun h => ⟨h t (List.mem_cons_self ..), fun u hu => h u (List.mem_cons_of_mem _ hu)⟩
  · rintro ⟨h1, h2⟩ u hu
    rcases List.mem_cons.mp hu with rfl | hu
    exacts [h1, h2 u hu]

/-- The initial callers carry exactly the given payloads. -/
theorem map_payload_init (l : List (List Char)) :
    List.map Caller.payload
      (l.map (fun p => ({ payload := p, phase := .ready } : Caller))) = l := by
  induction l with
  | nil => rfl
  | cons a t ih => simp only [List.map_cons, ih]

/-- No call has completed in the initial state. -/
theorem donePayloads_init (l : List (List Char)) :
    donePayloads (l.map (fun p => ({ payload := p, phase := .ready } : Caller))) = [] := by
  induction l with
  | nil => rfl
  | cons a t ih => simpa [donePayloads_cons_ready] using ih

/-- The invariant holds initially. -/
theorem concInv_init (P0 : List (List Char)) : ConcInv P0 (initConc P0) := by
  refine ⟨map_payload_init P0, [], ?_, Or.inl ⟨rfl, ?_, rfl⟩⟩
  · show List.Perm [] (donePayloads (P0.map _))
    rw [donePayloads_init]
  · intro t ht r
    simp only [initConc, List.mem_map] at ht
    obtain ⟨p, -, rfl⟩ := ht
    simp

/-- The invariant is preserved by every step. -/
theorem concInv_step {P0 : List (List Char)} {s s' : ConcState}
    (hstep : ConcStep s s') (hinv : ConcInv P0 s) : ConcInv P0 s' := by
  cases hstep with
  | lock pre post p sink =>
    obtain ⟨hmap, d, hperm, hbranch⟩ := hinv
    rcases hbranch with ⟨-, hnw, hsink⟩ | ⟨pre', t', post', rem, w, hcal, hlock, -⟩
    · replace hnw : noWriting (pre ++ { payload := p, phase := .ready } :: post) := hnw
      rw [noWriting_append, noWriting_cons] at hnw
      refine ⟨?_, d, ?_, Or.inr ⟨pre, _, post, p, [], rfl, rfl, rfl,
        (List.nil_append p).symm, hnw.1, hnw.2.2, ?_⟩⟩
      · simpa using hmap
      · show List.Perm d (donePayloads (pre ++ _ :: post))
        rw [donePayloads_append, donePayloads_cons_writing]
        rw [donePayloads_append, donePayloads_cons_ready] at hperm
        exact hperm
      · show sink = d.flatten ++ []
        rw [List.append_nil]
        exact hsink
    · exact absurd hlock (by simp)
  | write pre post p c cs sink =>
    obtain ⟨hmap, d, hperm, hbranch⟩ := hinv
    rcases hbranch with ⟨hlock, -, -⟩ | ⟨pre', t', post', rem, w, hcal, hlock, hph,
      hpay, hnwpre, hnwpost, hsink⟩
    · exact absurd hlock (by simp)
    · replace hcal : pre ++ { payload := p, phase := .writing (c :: cs) } :: post =
        pre' ++ t' :: post' := hcal
      replace hlock : (some pre.length : Option Nat) = some pre'.length := hlock
      simp only [Option.some.injEq] at hlock
      obtain ⟨hpre, hrest⟩ := List.append_inj hcal hlock
      obtain ⟨ht, hpost⟩ := List.cons_eq_cons.mp hrest
      subst hpre hpost
      rw [← ht] at hph hpay
      simp only at hph hpay
      cases hph
      replace hsink : sink = d.flatten ++ w := hsink
      refine ⟨?_, d, ?_, Or.inr ⟨pre, _, post, cs, w ++ [c], rfl, rfl, rfl, ?_,
        hnwpre, hnwpost, ?_⟩⟩
      · simpa using hmap
      · show List.Perm d (donePayloads (pre ++ _ :: post))
        rw [donePayloads_append, donePayloads_cons_writing]
        rw [donePayloads_append, donePayloads_cons_writing] at hperm
        exact hperm
      · show p = (w ++ [c]) ++ cs
        rw [List.append_assoc, List.singleton_append]
        exact hpay
      · show sink ++ [c] = d.flatten ++ (w ++ [c])
        rw [hsink, List.append_assoc]
  | unlock pre post p sink =>
    obtain ⟨hmap, d, hperm, hbranch⟩ := hinv
    rcases hbranch with ⟨hlock, -, -⟩ | ⟨pre', t', post', rem, w, hcal, hlock, hph,
      hpay, hnwpre, hnwpost, hsink⟩
    · exact absurd hlock (by simp)
    · replace hcal : pre ++ { payload := p, phase := .writing [] } :: post =
        pre' ++ t' :: post' := hcal
      replace hlock : (some pre.length : Option Nat) = some pre'.length := hlock
      simp only [Option.some.injEq] at hlock
      obtain ⟨hpre, hrest⟩ := List.append_inj hcal hlock
      obtain ⟨ht, hpost⟩ := List.cons_eq_cons.mp hrest
      subst hpre hpost
      rw [← ht] at hph hpay
      simp only at hph hpay
      cases hph
      rw [List.append_nil] at hpay
      subst hpay
      replace hsink : sink = d.flatten ++ p := hsink
      rw [donePayloads_append, donePayloads_cons_writing] at hperm
      refine ⟨?_, d ++ [p], ?_, Or.inl ⟨rfl, ?_, ?_⟩⟩
      · simpa using hmap
      · show List.Perm (d ++ [p]) (donePayloads (pre ++ _ :: post))
        rw [donePayloads_append, donePayloads_cons_done]
        have h1 : List.Perm (d ++ [p]) (p :: d) := List.perm_append_singleton ..
        have h2 : List.Perm (p :: d) (p :: (donePayloads pre ++ donePayloads post)) :=
          hperm.cons p
        have h3 : List.Perm (donePayloads pre ++ p :: donePayloads post)
            (p :: (donePayloads pre ++ donePayloads post)) := List.perm_middle
        exact (h1.trans h2).trans h3.symm
      · show noWriting (pre ++ { payload := p, phase := .done } :: post)
        rw [noWriting_append, noWriting_cons]
        exact ⟨hnwpre, by simp, hnwpost⟩
      · show sink = (d ++ [p]).flatten
        rw [hsink, List.flatten_append]
        simp

/-- The invariant is preserved along any execution. -/
theorem concInv_steps {P0 : List (List Char)} {s s' : ConcState}
    (h : Relation.ReflTransGen ConcStep s s') (hs : ConcInv P0 s) : ConcInv P0 s' := by
  induction h with
  | refl => exact hs
  | tail hsteps hstep ih => exact concInv_step hstep ih

/-- Once every call has completed, the completed payloads are all the
payloads. -/
theorem donePayloads_of_done (l : List Caller) (h : ∀ t ∈ l, t.phase = .done) :
    donePayloads l = l.map Caller.payload := by
  induction l with
  | nil => rfl
  | cons t ts ih =>
    obtain ⟨p, ph⟩ := t
    have := h ⟨p, ph⟩ (List.mem_cons_self ..)
    simp only at this
    subst this
    rw [donePayloads_cons_done, List.map_cons]
    exact congrArg _ (ih fun u hu => h u (List.mem_cons_of_mem _ hu))

/-- C9: N concurrent SendLine calls on the same Stream, each encoding
its status line to a json value (the rendered line plus the encoder's
newline), leave the sink holding the N complete byte strings
concatenated in some order: under the single write lock no two calls
interleave their bytes, and the same step relation covers Close's
locked `]` write. -/
theorem c9_concurrent_sendline_atomic (pretty : Bool) (lines : List StatusLine)
    (rendered : List String)
    (hr : List.Forall₂ (fun b r => renderStatusLine pretty b = .ok r) lines rendered)
    (fs : ConcState)
    (htrace : Relation.ReflTransGen ConcStep
      (initConc (rendered.map (fun r => (r ++ "\n").toList))) fs)
    (hdone : ∀ t ∈ fs.callers, t.phase = .done) :
    ∃ order : List (List Char),
      order.Perm (rendered.map (fun r => (r ++ "\n").toList)) ∧
      fs.sink = order.flatten := by
  have hinv : ConcInv (rendered.map fun r => (r ++ "\n").toList) fs :=
    concInv_steps htrace (concInv_init _)
  obtain ⟨hmap, d, hperm, hbranch⟩ := hinv
  rcases hbranch with ⟨-, -, hsink⟩ | ⟨pre, t, post, rem, w, hcal, -, hph, -⟩
  · rw [donePayloads_of_done fs.callers hdone, hmap] at hperm
    exact ⟨d, hperm, hsink⟩
  · have hmem : t ∈ fs.callers := by
      rw [hcal]
      exact List.mem_append_right _ (List.mem_cons_self ..)
    have := hdone t hmem
    rw [hph] at this
    cases this

/-- A caller holding the mutex writes all its remaining bytes. -/
theorem concWriteAll (pre post : List Caller) (p : List Char) :
    ∀ (rem sink : List Char),
      Relation.ReflTransGen ConcStep
        ⟨pre ++ { payload := p, phase := .writing rem } :: post, some pre.length, sink⟩
        ⟨pre ++ { payload := p, phase := .writing [] } :: post, some pre.length,
          sink ++ rem⟩ := by
  intro rem
  induction rem with
  | nil => intro sink; simpa using Relation.ReflTransGen.refl
  | cons c cs ih =>
    intro sink
    have hstep := ConcStep.write pre post p c cs sink
    have hrest := ih (sink ++ [c])
    have harr : (sink ++ [c]) ++ cs = sink ++ (c :: cs) := by simp
    rw [harr] at hrest
    exact Relation.ReflTransGen.head hstep hrest

/-- One ready caller runs its whole call: lock, write, unlock. -/
theorem concRunOne (pre post : List Caller) (p sink : List Char) :
    Relation.ReflTransGen ConcStep
      ⟨pre ++ { payload := p, phase := .ready } :: post, none, sink⟩
      ⟨pre ++ { payload := p, phase := .done } :: post, none, sink ++ p⟩ :=
  .head (ConcStep.lock pre post p sink)
    ((concWriteAll pre post p p sink).tail (ConcStep.unlock pre post p (sink ++ p)))

/-- C9 witness: two concurrent SendLine calls, run to completion in one
concrete schedule, leave the two complete json values on the sink. -/
theorem c9_concurrent_sendline_atomic_witness :
    ∃ order : List (List Char),
      order.Perm ((["[]", "[\x7b\"full_text\":\"b\"\x7d]"] : List String).map
        (fun r => (r ++ "\n").toList)) ∧
      (("[]\n".toList ++ "[\x7b\"full_text\":\"b\"\x7d]\n".toList : List Char)) =
        order.flatten := by
  have hr : List.Forall₂ (fun b r => renderStatusLine false b = .ok r)
      [[], [{ FullText := "b" }]] ["[]", "[\x7b\"full_text\":\"b\"\x7d]"] :=
    List.Forall₂.cons rfl (List.Forall₂.cons rfl List.Forall₂.nil)
  have t1 : Relation.ReflTransGen ConcStep
      (initConc ((["[]", "[\x7b\"full_text\":\"b\"\x7d]"] : List String).map
        (fun r => (r ++ "\n").toList)))
      ⟨[{ payload := "[]\n".toList, phase := .done },
        { payload := "[\x7b\"full_text\":\"b\"\x7d]\n".toList, phase := .ready }],
        none, [] ++ "[]\n".toList⟩ :=
    concRunOne [] [{ payload := "[\x7b\"full_text\":\"b\"\x7d]\n".toList, phase := .ready }]
      ("[]\n".toList) []
  have t2 : Relation.ReflTransGen ConcStep
      ⟨[{ payload := "[]\n".toList, phase := .done },
        { payload := "[\x7b\"full_text\":\"b\"\x7d]\n".toList, phase := .ready }],
        none, [] ++ "[]\n".toList⟩
      ⟨[{ payload := "[]\n".toList, phase := .done },
        { payload := "[\x7b\"full_text\":\"b\"\x7d]\n".toList, phase := .done }],
        none, ([] ++ "[]\n".toList) ++ "[\x7b\"full_text\":\"b\"\x7d]\n".toList⟩ :=
    concRunOne [{ payload := "[]\n".toList, phase := .done }] []
      ("[\x7b\"full_text\":\"b\"\x7d]\n".toList) ([] ++ "[]\n".toList)
  have hfin := c9_concurrent_sendline_atomic false [[], [{ FullText := "b" }]]
    ["[]", "[\x7b\"full_text\":\"b\"\x7d]"] hr _ (t1.trans t2) (by decide)
  simpa using hfin

end I3bar
